import Mathlib

/-!
Verification of the QuickPHP VS Code extension (src/extension.ts).

The development shallowly embeds the string-level and state-level behaviour of
the extension: the JavaScript string primitives it relies on, the
trigger heuristic and debounced scheduler of updateOutput, the file-target
selection and completion callback of runPHPCode, the block runner
runSelectedBlock, and the decoration state manipulated by clearOutput and
displayInlineOutput.
-/

namespace QuickPHP

/-- Whitespace characters removed by JavaScript String.prototype.trim
(ASCII subset relevant here). -/
def isJsSpace (c : Char) : Bool :=
  c = ' ' || c = '\t' || c = '\n' || c = '\r' || c = '\x0b' || c = '\x0c'

/-- Strip leading whitespace from a character list. -/
def trimLeftList (l : List Char) : List Char := l.dropWhile isJsSpace

/-- Strip leading and trailing whitespace from a character list. -/
def jsTrimList (l : List Char) : List Char :=
  (trimLeftList (trimLeftList l).reverse).reverse

/-- Model of JavaScript String.prototype.trim. -/
def jsTrim (s : String) : String := ⟨jsTrimList s.data⟩

/-- Model of JavaScript String.prototype.startsWith. -/
def jsStartsWith (s pre : String) : Bool := pre.data.isPrefixOf s.data

/-- Substring occurrence test on character lists (leftmost search). -/
def containsSub (pat : List Char) : List Char → Bool
  | [] => pat.isEmpty
  | c :: cs => pat.isPrefixOf (c :: cs) || containsSub pat cs

/-- Model of JavaScript String.prototype.includes. -/
def jsIncludes (s sub : String) : Bool := containsSub sub.data s.data

/-- Replace the leftmost occurrence of pat in the list (if any) by repl. -/
def replaceFirstList (pat repl : List Char) : List Char → List Char
  | [] => if pat.isPrefixOf ([] : List Char) then repl else []
  | c :: cs =>
    if pat.isPrefixOf (c :: cs) then repl ++ (c :: cs).drop pat.length
    else c :: replaceFirstList pat repl cs

/-- Model of JavaScript String.prototype.replace with a string pattern:
only the first occurrence is replaced. -/
def jsReplace (s pat repl : String) : String :=
  ⟨replaceFirstList pat.data repl.data s.data⟩

/-- Model of the JavaScript logical-or idiom a || b on strings:
the empty string is falsy. -/
def jsOrStr (a b : String) : String := if a = "" then b else a

/-- Model of cfg.get(key) || fallback: an unset key or an empty string
falls back to the default. -/
def jsGetOr (v : Option String) (d : String) : String :=
  match v with
  | none => d
  | some s => if s = "" then d else s

/- Basic lemmas about the string primitives. -/

theorem jsStartsWith_iff (s pre : String) :
    jsStartsWith s pre = true ↔ pre.data <+: s.data :=
  List.isPrefixOf_iff_prefix

theorem containsSub_iff (pat : List Char) (l : List Char) :
    containsSub pat l = true ↔ pat <:+: l := by
  induction l with
  | nil =>
    simp [containsSub, List.isEmpty_iff, List.infix_nil]
  | cons c cs ih =>
    simp only [containsSub, Bool.or_eq_true, List.infix_cons_iff, ih,
      List.isPrefixOf_iff_prefix]

theorem jsIncludes_iff (s sub : String) :
    jsIncludes s sub = true ↔ sub.data <:+: s.data :=
  containsSub_iff sub.data s.data

theorem singleton_mem_of_contains (c : Char) (l : List Char) :
    [c] <:+: l ↔ c ∈ l := by
  constructor
  · rintro ⟨s, t, rfl⟩
    simp
  · intro h
    obtain ⟨s, t, rfl⟩ := List.append_of_mem h
    exact ⟨s, t, by simp⟩

theorem head_dropWhile_isJsSpace (l : List Char) (c : Char) (t : List Char)
    (h : trimLeftList l = c :: t) : isJsSpace c = false := by
  induction l with
  | nil => simp [trimLeftList] at h
  | cons a as ih =>
    by_cases ha : isJsSpace a = true
    · have he : trimLeftList (a :: as) = trimLeftList as := by
        simp [trimLeftList, List.dropWhile_cons, ha]
      rw [he] at h
      exact ih h
    · have ha2 : isJsSpace a = false := by simpa using ha
      have he : trimLeftList (a :: as) = a :: as := by
        simp [trimLeftList, List.dropWhile_cons, ha2]
      rw [he] at h
      injection h with h1 h2
      exact h1 ▸ ha2

theorem jsTrimList_eq_nil_iff (l : List Char) :
    jsTrimList l = [] ↔ ∀ c ∈ l, isJsSpace c = true := by
  constructor
  · intro h
    have h1 : trimLeftList (trimLeftList l).reverse = [] := by
      have h0 := congrArg List.reverse h
      simpa [jsTrimList] using h0
    have h2 : ∀ c ∈ (trimLeftList l).reverse, isJsSpace c = true := by
      rw [← List.dropWhile_eq_nil_iff]
      exact h1
    have h3 : ∀ c ∈ trimLeftList l, isJsSpace c = true := by
      intro c hc
      exact h2 c (List.mem_reverse.mpr hc)
    have h4 : trimLeftList l = [] := by
      by_contra hne
      obtain ⟨c, t, hct⟩ := List.exists_cons_of_ne_nil hne
      have hh := head_dropWhile_isJsSpace l c t hct
      have hm := h3 c (by rw [hct]; simp)
      rw [hm] at hh
      exact absurd hh (by simp)
    simp only [trimLeftList] at h4
    rw [List.dropWhile_eq_nil_iff] at h4
    exact h4
  · intro h
    have h4 : trimLeftList l = [] := by
      simp only [trimLeftList]
      rw [List.dropWhile_eq_nil_iff]
      exact h
    show (trimLeftList (trimLeftList l).reverse).reverse = []
    rw [h4]
    rfl

theorem jsTrimList_all_space_eq_nil (l : List Char)
    (h : ∀ c ∈ jsTrimList l, isJsSpace c = true) : jsTrimList l = [] := by
  by_contra hne
  have hne2 : trimLeftList (trimLeftList l).reverse ≠ [] := by
    intro h0
    apply hne
    simp [jsTrimList, h0]
  obtain ⟨c, t, hct⟩ := List.exists_cons_of_ne_nil hne2
  have hhead := head_dropWhile_isJsSpace (trimLeftList l).reverse c t hct
  have hmem : c ∈ jsTrimList l := by
    simp only [jsTrimList, List.mem_reverse]
    rw [hct]
    simp
  have hm := h c hmem
  rw [hm] at hhead
  exact absurd hhead (by simp)

theorem jsTrim_data (s : String) : (jsTrim s).data = jsTrimList s.data := rfl

theorem jsTrim_eq_empty_iff (s : String) :
    jsTrim s = "" ↔ jsTrimList s.data = [] := by
  constructor
  · intro h
    have h0 := congrArg String.data h
    simpa [jsTrim_data] using h0
  · intro h
    show (⟨jsTrimList s.data⟩ : String) = ""
    rw [h]

theorem jsTrim_jsTrim_eq_empty (s : String) (h : jsTrim (jsTrim s) = "") :
    jsTrim s = "" := by
  rw [jsTrim_eq_empty_iff] at h ⊢
  rw [jsTrim_data] at h
  rw [jsTrimList_eq_nil_iff] at h
  exact jsTrimList_all_space_eq_nil s.data h

theorem jsTrim_ne_empty_of_head (c : Char) (t : List Char)
    (hc : isJsSpace c = false) (s : String) (hs : s.data = c :: t) :
    jsTrim s ≠ "" := by
  rw [Ne, jsTrim_eq_empty_iff, hs, jsTrimList_eq_nil_iff]
  intro h
  have hm := h c (by simp)
  rw [hm] at hc
  exact absurd hc (by simp)

theorem replaceFirstList_spec (pat repl : List Char) (l : List Char)
    (h : containsSub pat l = true) :
    ∃ a b, l = a ++ pat ++ b ∧ replaceFirstList pat repl l = a ++ repl ++ b := by
  induction l with
  | nil =>
    have hpat : pat = [] := by simpa [containsSub, List.isEmpty_iff] using h
    refine ⟨[], [], by simp [hpat], ?_⟩
    simp [replaceFirstList, hpat]
  | cons c cs ih =>
    by_cases hp : pat.isPrefixOf (c :: cs) = true
    · obtain ⟨b, hb⟩ := List.isPrefixOf_iff_prefix.mp hp
      refine ⟨[], b, by simp [hb.symm], ?_⟩
      have hr : replaceFirstList pat repl (c :: cs) = repl ++ (c :: cs).drop pat.length := by
        simp [replaceFirstList, hp]
      rw [hr, ← hb, List.drop_left]
      simp
    · have hp2 : pat.isPrefixOf (c :: cs) = false := Bool.eq_false_iff.mpr hp
      have hcs : containsSub pat cs = true := by
        have h0 := h
        simp only [containsSub, Bool.or_eq_true] at h0
        rcases h0 with h1 | h2
        · exact absurd h1 hp
        · exact h2
      obtain ⟨a, b, hab, hrep⟩ := ih hcs
      refine ⟨c :: a, b, by simp [hab], ?_⟩
      have hr : replaceFirstList pat repl (c :: cs) = c :: replaceFirstList pat repl cs := by
        simp [replaceFirstList, hp2]
      rw [hr, hrep]
      simp

/- Embedding of the extension source (src/extension.ts). -/

/-- Embedding of the module-level defaultConfig object (lines 11-15). -/
structure DefaultConfig where
  executionDelay : Nat
  phpPath : String
  inlineColor : String
deriving DecidableEq

def defaultConfig : DefaultConfig :=
  { executionDelay := 300, phpPath := "php", inlineColor := "grey" }

/-- The quickphp section of the host settings store; none models an unset key. -/
structure WorkspaceConfig where
  executionDelay : Option Nat
  phpPath : Option String
  inlineColor : Option String
deriving DecidableEq

/-- The parts of a vscode.TextDocument the extension reads. An untitled or
path-less document is modelled by isUntitled and an empty fsPath. -/
structure TextDocument where
  fsPath : String
  isUntitled : Bool
  lines : List String
deriving DecidableEq

/-- document.lineAt(i).text. -/
def TextDocument.lineTextAt (d : TextDocument) (i : Nat) : String :=
  d.lines.getD i ""

/-- document.getText(): the full document text. -/
def TextDocument.getText (d : TextDocument) : String :=
  String.intercalate "\n" d.lines

/-- The parts of a vscode.TextEditor the extension reads:
its document and the active cursor line (editor.selection.active.line). -/
structure TextEditor where
  document : TextDocument
  cursorLine : Nat
deriving DecidableEq

/-- One decoration instance: a created TextEditorDecorationType together with
the single end-of-line range and render options applied to it
(displayInlineOutput, lines 166-179). -/
structure Decoration where
  id : Nat
  line : Nat
  startChar : Nat
  contentText : String
  color : String
deriving DecidableEq

/-- The decoration-related module state (currentDecorationType,
errorDecorationType, lines 6-7) together with the decorations the editor is
currently rendering: every created and not-yet-disposed decoration type whose
ranges are applied. nextId is a supply of identities for created types. -/
structure RenderState where
  visible : List Decoration
  currentDecorationType : Option Decoration
  errorDecorationType : Option Decoration
  nextId : Nat
deriving DecidableEq

/-- State on activation: no decorations, no handles. -/
def RenderState.initial : RenderState :=
  { visible := [], currentDecorationType := none,
    errorDecorationType := none, nextId := 0 }

/-- Embedding of clearOutput (lines 54-65): for each tracked decoration type,
remove its applied ranges and dispose it, then reset the handle. -/
def clearOutput (st : RenderState) : RenderState :=
  let vis1 := match st.currentDecorationType with
    | some d => st.visible.filter (fun x => x.id ≠ d.id)
    | none => st.visible
  let vis2 := match st.errorDecorationType with
    | some d => vis1.filter (fun x => x.id ≠ d.id)
    | none => vis1
  { visible := vis2, currentDecorationType := none,
    errorDecorationType := none, nextId := st.nextId }

/-- Embedding of displayInlineOutput (lines 158-180): return early on
whitespace-only output, otherwise clear the previous annotation and create,
apply and track a fresh end-of-line decoration on the target line. -/
def displayInlineOutput (cfg : WorkspaceConfig) (output : String)
    (targetLineText : String) (currentLine : Nat) (executionTime : String)
    (isError : Bool) (st : RenderState) : RenderState :=
  if jsTrim output = "" then st
  else
    let st1 := clearOutput st
    let color := if isError then "red" else jsGetOr cfg.inlineColor defaultConfig.inlineColor
    let formattedOutput :=
      if isError then "Error: " ++ output ++ " (Execution Time: " ++ executionTime ++ "s)"
      else output ++ " (Execution Time: " ++ executionTime ++ "s)"
    let deco : Decoration :=
      { id := st1.nextId, line := currentLine, startChar := targetLineText.length,
        contentText := " // " ++ formattedOutput, color := color }
    { visible := st1.visible ++ [deco], currentDecorationType := some deco,
      errorDecorationType := st1.errorDecorationType, nextId := st1.nextId + 1 }

/-- Which file runPHPCode invokes the interpreter on, and what is written to
it beforehand. -/
inductive ExecTarget where
  | savedFile (filePath : String)
  | tempFile (filePath : String) (contents : String)
deriving DecidableEq

def ExecTarget.filePath : ExecTarget → String
  | .savedFile p => p
  | .tempFile p _ => p

def ExecTarget.isTempFile : ExecTarget → Bool
  | .savedFile _ => false
  | .tempFile _ _ => true

/-- Embedding of the file-selection part of runPHPCode (lines 89-98):
dirname models the extension directory __dirname. An untitled or path-less
document goes to the fixed-name temp file, wrapped in PHP script tags;
otherwise the interpreter runs on the document's own path. -/
def runPHPCodeTarget (dirname : String) (code : String) (doc : TextDocument) :
    ExecTarget :=
  if doc.fsPath = "" ∨ doc.isUntitled = true then
    .tempFile (dirname ++ "/quickphp.php") ("<?php\n" ++ code ++ "\n?>")
  else
    .savedFile doc.fsPath

/-- Outcome of one child_process.exec invocation: optional spawn/exec error
message, captured stdout and stderr. -/
structure ProcessResult where
  error : Option String
  stdout : String
  stderr : String
deriving DecidableEq

/-- The failure condition of the exec callback (line 112): error || stderr,
with the empty string falsy. -/
def isFailure (r : ProcessResult) : Bool := r.error.isSome || r.stderr ≠ ""

/-- The errorMessage computation of the exec callback (lines 114-119):
stderr.trim() || (error ? error.message : 'Unknown error'), then, when a temp
file was used, the first occurrence of the temp path replaced by
'Current File'. -/
def errorMessageOf (r : ProcessResult) (isTempFile : Bool) (filePath : String) :
    String :=
  let m := jsOrStr (jsTrim r.stderr)
    (match r.error with
     | some msg => msg
     | none => "Unknown error")
  if isTempFile then jsReplace m filePath "Current File" else m

/-- Embedding of the exec completion callback of runPHPCode (lines 103-131),
restricted to its effect on the decoration state. -/
def runPHPCodeOnComplete (cfg : WorkspaceConfig) (target : ExecTarget)
    (r : ProcessResult) (targetLineText : String) (currentLine : Nat)
    (executionTime : String) (st : RenderState) : RenderState :=
  if isFailure r then
    displayInlineOutput cfg
      ("Error: " ++ errorMessageOf r target.isTempFile target.filePath)
      targetLineText currentLine executionTime true (clearOutput st)
  else
    displayInlineOutput cfg (jsTrim r.stdout)
      targetLineText currentLine executionTime false (clearOutput st)

/-- The line-trigger heuristic of the updateOutput timer callback (line 45),
applied to the already-trimmed current line text. -/
def triggerHeuristic (currentLineText : String) : Bool :=
  jsStartsWith currentLineText "echo " ||
    jsIncludes currentLineText "print" ||
    jsIncludes currentLineText "$"

/-- What the timer callback of updateOutput does after the heuristic check:
either call runPHPCode on the full document text (a process spawn), or call
clearOutput and spawn nothing. -/
inductive TimerOutcome where
  | spawn (documentText : String) (line : Nat)
  | cleared
deriving DecidableEq

/-- Embedding of the body of the updateOutput timer callback (lines 42-51). -/
def updateOutputCallback (ed : TextEditor) (st : RenderState) :
    RenderState × TimerOutcome :=
  let currentLineText := jsTrim (ed.document.lineTextAt ed.cursorLine)
  if triggerHeuristic currentLineText then
    (st, .spawn ed.document.getText ed.cursorLine)
  else
    (clearOutput st, .cleared)

/-- The debounce delay passed to setTimeout in updateOutput (line 51), as a
function of the available settings store: the store is not consulted and the
hard-coded defaultConfig value is used. -/
def delayUsed (cfg : WorkspaceConfig) : Nat := defaultConfig.executionDelay

/-- Modelled from the spec: "debounce delay ... read-only snapshot pulled from
the host settings store at use time" with key executionDelay "(milliseconds,
default 300)". This settings-store read is what the spec describes; the code
under src/ does not perform it. -/
def executionDelayPerSpec (cfg : WorkspaceConfig) : Nat :=
  cfg.executionDelay.getD 300

/-- State of the debounced scheduler: the editor state the host currently
exposes, the armed timeout if any (clearTimeout discards it), a supply of
timeout identities, and the log of editor states read by timer callbacks that
actually ran. -/
structure SchedulerState where
  editor : TextEditor
  pendingTimer : Option Nat
  nextTimerId : Nat
  evaluations : List TextEditor
deriving DecidableEq

/-- Host events driving updateOutput: a text-change or selection-change event
(after which the editor exposes the given state), or a timeout firing. -/
inductive SchedulerEvent where
  | event (ed : TextEditor)
  | timerFires (id : Nat)
deriving DecidableEq

/-- One step of the debounced scheduler (updateOutput, lines 40-52): every
change or selection event clears the pending timeout and arms a fresh one; a
timeout only fires if it is still the pending one, and its callback reads the
editor state present at fire time. -/
def schedStep (s : SchedulerState) : SchedulerEvent → SchedulerState
  | .event ed =>
      { editor := ed, pendingTimer := some s.nextTimerId,
        nextTimerId := s.nextTimerId + 1, evaluations := s.evaluations }
  | .timerFires i =>
      if s.pendingTimer = some i then
        { editor := s.editor, pendingTimer := none,
          nextTimerId := s.nextTimerId,
          evaluations := s.evaluations ++ [s.editor] }
      else s

/-- Run the scheduler over a sequence of host events. -/
def schedRun (s : SchedulerState) (evs : List SchedulerEvent) : SchedulerState :=
  evs.foldl schedStep s

/-- Outcome of runSelectedBlock before process completion: either a modal
error message, or a temp-file write plus interpreter invocation. -/
inductive BlockOutcome where
  | showErrorMessage (msg : String)
  | execBlock (tempFilePath : String) (contents : String)
deriving DecidableEq

/-- Embedding of runSelectedBlock (lines 134-147): reject a whitespace-only
selection with a modal error and stop; otherwise write the selection verbatim
to the fixed-name block temp file and run the interpreter on it. -/
def runSelectedBlock (dirname : String) (selectedText : String) : BlockOutcome :=
  if jsTrim selectedText = "" then
    .showErrorMessage "No PHP code selected to execute."
  else
    .execBlock (dirname ++ "/quickphp_block.php") selectedText

/-- Operations that touch the decoration state, for stating the
single-annotation invariant. -/
inductive PresenterOp where
  | clear
  | display (cfg : WorkspaceConfig) (output targetLineText : String)
      (currentLine : Nat) (executionTime : String) (isError : Bool)
  | complete (cfg : WorkspaceConfig) (target : ExecTarget) (r : ProcessResult)
      (targetLineText : String) (currentLine : Nat) (executionTime : String)

def applyOp (st : RenderState) : PresenterOp → RenderState
  | .clear => clearOutput st
  | .display cfg o tl cl t e => displayInlineOutput cfg o tl cl t e st
  | .complete cfg tg r tl cl t => runPHPCodeOnComplete cfg tg r tl cl t st

def applyOps (st : RenderState) (ops : List PresenterOp) : RenderState :=
  ops.foldl applyOp st

/-- Invariant of the decoration state: the rendered decorations are exactly
the one tracked by currentDecorationType (if any), errorDecorationType is
never populated, and tracked identities are below the supply. -/
def RenderInv (st : RenderState) : Prop :=
  st.visible = st.currentDecorationType.toList ∧
  st.errorDecorationType = none ∧
  ∀ d, st.currentDecorationType = some d → d.id < st.nextId

/- Helper lemmas about the decoration state. -/

theorem clearOutput_eq_of_inv (st : RenderState) (h : RenderInv st) :
    clearOutput st =
      { visible := [], currentDecorationType := none,
        errorDecorationType := none, nextId := st.nextId } := by
  obtain ⟨h1, h2, h3⟩ := h
  cases hc : st.currentDecorationType with
  | none =>
    have hv : st.visible = [] := by rw [h1, hc]; rfl
    simp [clearOutput, hc, h2, hv]
  | some d =>
    have hv : st.visible = [d] := by rw [h1, hc]; rfl
    simp [clearOutput, hc, h2, hv]

theorem renderInv_initial : RenderInv RenderState.initial := by
  refine ⟨rfl, rfl, ?_⟩
  intro d hd
  simp [RenderState.initial] at hd

theorem renderInv_clearOutput (st : RenderState) (h : RenderInv st) :
    RenderInv (clearOutput st) := by
  rw [clearOutput_eq_of_inv st h]
  refine ⟨rfl, rfl, ?_⟩
  intro d hd
  simp at hd

theorem displayInlineOutput_eq (cfg : WorkspaceConfig) (o tl t : String)
    (cl : Nat) (e : Bool) (st : RenderState) (h : RenderInv st)
    (ho : jsTrim o ≠ "") :
    displayInlineOutput cfg o tl cl t e st =
      { visible := [⟨st.nextId, cl, tl.length,
          " // " ++ (if e then "Error: " ++ o ++ " (Execution Time: " ++ t ++ "s)"
                     else o ++ " (Execution Time: " ++ t ++ "s)"),
          if e then "red" else jsGetOr cfg.inlineColor defaultConfig.inlineColor⟩],
        currentDecorationType := some ⟨st.nextId, cl, tl.length,
          " // " ++ (if e then "Error: " ++ o ++ " (Execution Time: " ++ t ++ "s)"
                     else o ++ " (Execution Time: " ++ t ++ "s)"),
          if e then "red" else jsGetOr cfg.inlineColor defaultConfig.inlineColor⟩,
        errorDecorationType := none, nextId := st.nextId + 1 } := by
  simp only [displayInlineOutput, if_neg ho, clearOutput_eq_of_inv st h,
    List.nil_append]

theorem displayInlineOutput_eq_success (cfg : WorkspaceConfig) (o tl t : String)
    (cl : Nat) (st : RenderState) (h : RenderInv st) (ho : jsTrim o ≠ "") :
    displayInlineOutput cfg o tl cl t false st =
      { visible := [⟨st.nextId, cl, tl.length,
          " // " ++ (o ++ " (Execution Time: " ++ t ++ "s)"),
          jsGetOr cfg.inlineColor defaultConfig.inlineColor⟩],
        currentDecorationType := some ⟨st.nextId, cl, tl.length,
          " // " ++ (o ++ " (Execution Time: " ++ t ++ "s)"),
          jsGetOr cfg.inlineColor defaultConfig.inlineColor⟩,
        errorDecorationType := none, nextId := st.nextId + 1 } := by
  rw [displayInlineOutput_eq cfg o tl t cl false st h ho]
  rfl

theorem displayInlineOutput_eq_error (cfg : WorkspaceConfig) (o tl t : String)
    (cl : Nat) (st : RenderState) (h : RenderInv st) (ho : jsTrim o ≠ "") :
    displayInlineOutput cfg o tl cl t true st =
      { visible := [⟨st.nextId, cl, tl.length,
          " // " ++ ("Error: " ++ o ++ " (Execution Time: " ++ t ++ "s)"), "red"⟩],
        currentDecorationType := some ⟨st.nextId, cl, tl.length,
          " // " ++ ("Error: " ++ o ++ " (Execution Time: " ++ t ++ "s)"), "red"⟩,
        errorDecorationType := none, nextId := st.nextId + 1 } := by
  rw [displayInlineOutput_eq cfg o tl t cl true st h ho]
  rfl

theorem renderInv_displayInlineOutput (cfg : WorkspaceConfig) (o tl t : String)
    (cl : Nat) (e : Bool) (st : RenderState) (h : RenderInv st) :
    RenderInv (displayInlineOutput cfg o tl cl t e st) := by
  by_cases ho : jsTrim o = ""
  · simpa [displayInlineOutput, ho] using h
  · rw [displayInlineOutput_eq cfg o tl t cl e st h ho]
    refine ⟨rfl, rfl, ?_⟩
    intro d hd
    simp only [Option.some.injEq] at hd
    rw [← hd]
    exact Nat.lt_succ_self st.nextId

theorem renderInv_runPHPCodeOnComplete (cfg : WorkspaceConfig)
    (target : ExecTarget) (r : ProcessResult) (tl : String) (cl : Nat)
    (t : String) (st : RenderState) (h : RenderInv st) :
    RenderInv (runPHPCodeOnComplete cfg target r tl cl t st) := by
  rw [runPHPCodeOnComplete]
  by_cases hf : isFailure r = true
  · rw [if_pos hf]
    exact renderInv_displayInlineOutput _ _ _ _ _ _ _ (renderInv_clearOutput st h)
  · rw [if_neg hf]
    exact renderInv_displayInlineOutput _ _ _ _ _ _ _ (renderInv_clearOutput st h)

theorem renderInv_applyOp (st : RenderState) (op : PresenterOp)
    (h : RenderInv st) : RenderInv (applyOp st op) := by
  cases op with
  | clear => exact renderInv_clearOutput st h
  | display cfg o tl cl t e => exact renderInv_displayInlineOutput cfg o tl t cl e st h
  | complete cfg tg r tl cl t => exact renderInv_runPHPCodeOnComplete cfg tg r tl cl t st h

theorem renderInv_applyOps (ops : List PresenterOp) (st : RenderState)
    (h : RenderInv st) : RenderInv (applyOps st ops) := by
  induction ops generalizing st with
  | nil => exact h
  | cons op rest ih => exact ih (applyOp st op) (renderInv_applyOp st op h)

theorem renderInv_visible_length (st : RenderState) (h : RenderInv st) :
    st.visible.length ≤ 1 := by
  rw [h.1]
  cases st.currentDecorationType <;> simp

/- Scheduler burst lemma and string normalization helpers. -/

theorem schedRun_events_burst (s0 : SchedulerState) (a : TextEditor)
    (rest : List TextEditor) :
    schedRun s0 ((a :: rest).map SchedulerEvent.event) =
      { editor := rest.getLastD a,
        pendingTimer := some (s0.nextTimerId + rest.length),
        nextTimerId := s0.nextTimerId + rest.length + 1,
        evaluations := s0.evaluations } := by
  induction rest generalizing s0 a with
  | nil =>
    simp [schedRun, schedStep, List.getLastD]
  | cons b t ih =>
    have hstep : schedRun s0 ((a :: b :: t).map SchedulerEvent.event) =
        schedRun (schedStep s0 (SchedulerEvent.event a))
          ((b :: t).map SchedulerEvent.event) := rfl
    rw [hstep, ih]
    simp only [schedStep, SchedulerState.mk.injEq, List.getLastD_cons,
      List.length_cons]
    refine ⟨trivial, ?_, ?_, trivial⟩
    · congr 1
      omega
    · omega

theorem success_contentText_norm (m t : String) :
    " // " ++ (m ++ " (Execution Time: " ++ t ++ "s)") =
      " // " ++ m ++ " (Execution Time: " ++ t ++ "s)" := by
  simp only [← String.append_assoc]

theorem error_contentText_norm (m t : String) :
    " // " ++ ("Error: " ++ ("Error: " ++ m) ++ " (Execution Time: " ++ t ++ "s)") =
      " // Error: Error: " ++ m ++ " (Execution Time: " ++ t ++ "s)" := by
  simp only [← String.append_assoc]
  rw [show (" // " ++ "Error: " ++ "Error: " : String) = " // Error: Error: " from rfl]

/- Claim theorems. -/

/-- C1: For every line of text, the trigger heuristic returns true if and only
if the trimmed line starts with the echo statement keyword, or contains the
print call name, or contains the dollar variable sigil; when it returns false,
the updateOutput timer callback spawns no interpreter process and clears any
existing annotation. -/
theorem C1_trigger_heuristic (ed : TextEditor) (st : RenderState)
    (hInv : RenderInv st) :
    (triggerHeuristic (jsTrim (ed.document.lineTextAt ed.cursorLine)) = true ↔
      ("echo ".data <+: (jsTrim (ed.document.lineTextAt ed.cursorLine)).data ∨
       "print".data <:+: (jsTrim (ed.document.lineTextAt ed.cursorLine)).data ∨
       '$' ∈ (jsTrim (ed.document.lineTextAt ed.cursorLine)).data)) ∧
    (triggerHeuristic (jsTrim (ed.document.lineTextAt ed.cursorLine)) = false →
      (updateOutputCallback ed st).2 = TimerOutcome.cleared ∧
      (updateOutputCallback ed st).1.visible = []) := by
  constructor
  · simp only [triggerHeuristic, Bool.or_eq_true, jsStartsWith_iff, jsIncludes_iff]
    rw [singleton_mem_of_contains, or_assoc]
  · intro hf
    have hcb : updateOutputCallback ed st = (clearOutput st, TimerOutcome.cleared) := by
      simp [updateOutputCallback, hf]
    rw [hcb]
    refine ⟨rfl, ?_⟩
    rw [clearOutput_eq_of_inv st hInv]

theorem C1_trigger_heuristic_witness :
    (updateOutputCallback ⟨⟨"", true, ["hello world"]⟩, 0⟩
        ⟨[⟨0, 0, 5, " // hi", "grey"⟩], some ⟨0, 0, 5, " // hi", "grey"⟩, none, 1⟩).2
      = TimerOutcome.cleared ∧
    (updateOutputCallback ⟨⟨"", true, ["hello world"]⟩, 0⟩
        ⟨[⟨0, 0, 5, " // hi", "grey"⟩], some ⟨0, 0, 5, " // hi", "grey"⟩, none, 1⟩).1.visible
      = [] :=
  (C1_trigger_heuristic ⟨⟨"", true, ["hello world"]⟩, 0⟩
    ⟨[⟨0, 0, 5, " // hi", "grey"⟩], some ⟨0, 0, 5, " // hi", "grey"⟩, none, 1⟩
    ⟨rfl, rfl, by
      intro d hd
      injection hd with h
      rw [← h]
      exact Nat.lt_succ_self 0⟩).2 (by decide)

/-- C3: In live mode, a saved document runs the interpreter directly on its
own file path; an untitled or path-less document has the full text wrapped in
PHP script tags written to the fixed-name temp file in the extension
directory, and the interpreter runs on that temp file. -/
theorem C3_live_mode_target (dirname code : String) (doc : TextDocument) :
    (¬ (doc.fsPath = "" ∨ doc.isUntitled = true) →
      runPHPCodeTarget dirname code doc = ExecTarget.savedFile doc.fsPath) ∧
    ((doc.fsPath = "" ∨ doc.isUntitled = true) →
      runPHPCodeTarget dirname code doc =
        ExecTarget.tempFile (dirname ++ "/quickphp.php")
          ("<?php\n" ++ code ++ "\n?>")) := by
  constructor
  · intro h
    unfold runPHPCodeTarget
    rw [if_neg h]
  · intro h
    unfold runPHPCodeTarget
    rw [if_pos h]

theorem C3_live_mode_target_witness :
    runPHPCodeTarget "/ext" "echo 1;" ⟨"", true, ["echo 1;"]⟩ =
      ExecTarget.tempFile "/ext/quickphp.php" "<?php\necho 1;\n?>" ∧
    runPHPCodeTarget "/ext" "echo 1;" ⟨"/home/user/a.php", false, ["echo 1;"]⟩ =
      ExecTarget.savedFile "/home/user/a.php" := by
  constructor
  · have h := (C3_live_mode_target "/ext" "echo 1;" ⟨"", true, ["echo 1;"]⟩).2 (Or.inl rfl)
    rw [h]
    decide
  · exact (C3_live_mode_target "/ext" "echo 1;"
      ⟨"/home/user/a.php", false, ["echo 1;"]⟩).1 (by decide)

/-- C8 counterexample: with executionDelay set to 1000 in the settings store,
the delay actually used is still the hard-coded 300, not the value pulled from
the settings store that the claim describes. -/
theorem C8_delay_counterexample :
    delayUsed ⟨some 1000, none, none⟩ = 300 ∧
    ¬ delayUsed ⟨some 1000, none, none⟩ =
        executionDelayPerSpec ⟨some 1000, none, none⟩ := by
  decide

/-- C8 amended: the debounce delay used for scheduling is always the
hard-coded 300 ms default from defaultConfig, whatever the settings store
holds; the executionDelay key is never consulted. -/
theorem C8_delay_amended (cfg cfg2 : WorkspaceConfig) :
    delayUsed cfg = 300 ∧ delayUsed cfg = delayUsed cfg2 := ⟨rfl, rfl⟩

/-- C9: Block mode rejects an empty or whitespace-only selection with a modal
user-facing error, spawning no process and writing no temp file; otherwise the
selection is written verbatim to the fixed-name block temp file and the
interpreter runs on it. -/
theorem C9_block_mode (dirname selectedText : String) :
    (jsTrim selectedText = "" →
      runSelectedBlock dirname selectedText =
        BlockOutcome.showErrorMessage "No PHP code selected to execute.") ∧
    (jsTrim selectedText ≠ "" →
      runSelectedBlock dirname selectedText =
        BlockOutcome.execBlock (dirname ++ "/quickphp_block.php") selectedText) := by
  constructor
  · intro h
    unfold runSelectedBlock
    rw [if_pos h]
  · intro h
    unfold runSelectedBlock
    rw [if_neg h]

theorem C9_block_mode_witness :
    runSelectedBlock "/ext" "   " =
      BlockOutcome.showErrorMessage "No PHP code selected to execute." ∧
    runSelectedBlock "/ext" "echo 2;" =
      BlockOutcome.execBlock "/ext/quickphp_block.php" "echo 2;" := by
  constructor
  · exact (C9_block_mode "/ext" "   ").1 (by decide)
  · have h := (C9_block_mode "/ext" "echo 2;").2 (by decide)
    rw [h]
    decide

/-- C2: A burst of rapid change or selection events before any timer fires
leaves the evaluation log untouched; the one still-pending timer then runs
exactly one evaluation reading the editor state (cursor line and full document
text) present at the last event, and the identity of any cancelled timer
fires to no effect, because each event cancels the pending timer and arms a
fresh one. -/
theorem C2_debounce (s0 : SchedulerState) (first : TextEditor)
    (rest : List TextEditor) :
    (schedRun s0 ((first :: rest).map SchedulerEvent.event)).evaluations =
      s0.evaluations ∧
    (schedRun s0 ((first :: rest).map SchedulerEvent.event)).editor =
      rest.getLastD first ∧
    (schedStep (schedRun s0 ((first :: rest).map SchedulerEvent.event))
        (SchedulerEvent.timerFires (s0.nextTimerId + rest.length))).evaluations =
      s0.evaluations ++ [rest.getLastD first] ∧
    (∀ j, j ≠ s0.nextTimerId + rest.length →
      schedStep (schedRun s0 ((first :: rest).map SchedulerEvent.event))
        (SchedulerEvent.timerFires j) =
      schedRun s0 ((first :: rest).map SchedulerEvent.event)) := by
  rw [schedRun_events_burst s0 first rest]
  refine ⟨rfl, rfl, ?_, ?_⟩
  · simp [schedStep]
  · intro j hj
    have hne2 : ¬ ((some (s0.nextTimerId + rest.length) : Option Nat) = some j) := by
      intro hc
      injection hc with hc2
      exact hj hc2.symm
    simp only [schedStep]
    rw [if_neg hne2]

theorem C2_debounce_witness :
    (schedStep (schedRun ⟨⟨⟨"", true, ["x"]⟩, 0⟩, none, 0, []⟩
        ([⟨⟨"", true, ["echo 1;"]⟩, 0⟩, ⟨⟨"", true, ["echo 2;"]⟩, 0⟩].map
          SchedulerEvent.event))
        (SchedulerEvent.timerFires 1)).evaluations =
      [⟨⟨"", true, ["echo 2;"]⟩, 0⟩] :=
  (C2_debounce ⟨⟨⟨"", true, ["x"]⟩, 0⟩, none, 0, []⟩
    ⟨⟨"", true, ["echo 1;"]⟩, 0⟩ [⟨⟨"", true, ["echo 2;"]⟩, 0⟩]).2.2.1

/-- C4: A successful evaluation with non-empty trimmed stdout renders an
end-of-line annotation on the target line whose text is the trimmed output
followed by the execution time; with sole content producing stdout
Hello, QuickPHP! the annotation text is Hello, QuickPHP! followed by the
execution time. -/
theorem C4_success_render (cfg : WorkspaceConfig) (target : ExecTarget)
    (r : ProcessResult) (tl t : String) (cl : Nat) (st : RenderState)
    (hInv : RenderInv st) (hfail : isFailure r = false)
    (hne : jsTrim r.stdout ≠ "") :
    (runPHPCodeOnComplete cfg target r tl cl t st).currentDecorationType =
      some ⟨st.nextId, cl, tl.length,
        " // " ++ jsTrim r.stdout ++ " (Execution Time: " ++ t ++ "s)",
        jsGetOr cfg.inlineColor defaultConfig.inlineColor⟩ ∧
    (r.stdout = "Hello, QuickPHP!" →
      (runPHPCodeOnComplete cfg target r tl cl t st).currentDecorationType =
        some ⟨st.nextId, cl, tl.length,
          " // " ++ "Hello, QuickPHP!" ++ " (Execution Time: " ++ t ++ "s)",
          jsGetOr cfg.inlineColor defaultConfig.inlineColor⟩) := by
  have hout : jsTrim (jsTrim r.stdout) ≠ "" :=
    fun hc => hne (jsTrim_jsTrim_eq_empty r.stdout hc)
  have hkey : runPHPCodeOnComplete cfg target r tl cl t st =
      displayInlineOutput cfg (jsTrim r.stdout) tl cl t false (clearOutput st) := by
    unfold runPHPCodeOnComplete
    rw [hfail]
    simp
  have hmain : (runPHPCodeOnComplete cfg target r tl cl t st).currentDecorationType =
      some ⟨st.nextId, cl, tl.length,
        " // " ++ jsTrim r.stdout ++ " (Execution Time: " ++ t ++ "s)",
        jsGetOr cfg.inlineColor defaultConfig.inlineColor⟩ := by
    rw [hkey, displayInlineOutput_eq_success cfg (jsTrim r.stdout) tl t cl
      (clearOutput st) (renderInv_clearOutput st hInv) hout,
      clearOutput_eq_of_inv st hInv, success_contentText_norm]
  refine ⟨hmain, ?_⟩
  intro hs
  rw [hmain]
  have : jsTrim r.stdout = "Hello, QuickPHP!" := by rw [hs]; decide
  rw [this]

theorem C4_success_render_witness :
    (runPHPCodeOnComplete ⟨none, none, none⟩ (ExecTarget.savedFile "/f.php")
        ⟨none, "Hello, QuickPHP!", ""⟩ "echo \"Hello, QuickPHP!\";" 0 "0.01"
        RenderState.initial).currentDecorationType =
      some ⟨0, 0, 24, " // Hello, QuickPHP! (Execution Time: 0.01s)", "grey"⟩ := by
  have h := (C4_success_render ⟨none, none, none⟩ (ExecTarget.savedFile "/f.php")
    ⟨none, "Hello, QuickPHP!", ""⟩ "echo \"Hello, QuickPHP!\";" "0.01" 0
    RenderState.initial renderInv_initial (by decide) (by decide)).2 rfl
  rw [h]
  decide

/-- C5: At most one annotation instance exists per editor at any time: every
decoration state reachable from activation renders at most one decoration,
and a display of a new annotation first disposes the prior decoration, so
after it exactly the new annotation is visible and the prior one never is. -/
theorem C5_single_decoration (ops : List PresenterOp) (cfg : WorkspaceConfig)
    (o tl t : String) (cl : Nat) (e : Bool) (ho : jsTrim o ≠ "") :
    (applyOps RenderState.initial ops).visible.length ≤ 1 ∧
    (displayInlineOutput cfg o tl cl t e
        (applyOps RenderState.initial ops)).visible.length = 1 ∧
    (∀ d, (applyOps RenderState.initial ops).currentDecorationType = some d →
      d ∉ (displayInlineOutput cfg o tl cl t e
        (applyOps RenderState.initial ops)).visible) := by
  have hInv := renderInv_applyOps ops RenderState.initial renderInv_initial
  refine ⟨renderInv_visible_length _ hInv, ?_, ?_⟩
  · rw [displayInlineOutput_eq cfg o tl t cl e _ hInv ho]
    rfl
  · intro d hd
    rw [displayInlineOutput_eq cfg o tl t cl e _ hInv ho]
    have hlt := hInv.2.2 d hd
    intro hc
    rw [List.mem_singleton] at hc
    rw [hc] at hlt
    exact Nat.lt_irrefl _ hlt

theorem C5_single_decoration_witness :
    (applyOps RenderState.initial
      [PresenterOp.display ⟨none, none, none⟩ "a" "ln" 0 "0.01" false]).visible.length ≤ 1 ∧
    (displayInlineOutput ⟨none, none, none⟩ "b" "ln" 0 "0.02" false
      (applyOps RenderState.initial
        [PresenterOp.display ⟨none, none, none⟩ "a" "ln" 0 "0.01" false])).visible.length = 1 :=
  ⟨(C5_single_decoration
      [PresenterOp.display ⟨none, none, none⟩ "a" "ln" 0 "0.01" false]
      ⟨none, none, none⟩ "b" "ln" "0.02" 0 false (by decide)).1,
   (C5_single_decoration
      [PresenterOp.display ⟨none, none, none⟩ "a" "ln" 0 "0.01" false]
      ⟨none, none, none⟩ "b" "ln" "0.02" 0 false (by decide)).2.1⟩

/-- C6 counterexample: with a stderr naming the temp path twice, the
substitution (JavaScript String.replace with a string pattern) replaces only
the first occurrence, so the displayed error text still contains the literal
temp file path, contradicting the claim that every occurrence is
substituted. -/
theorem C6_counterexample :
    jsIncludes
      (errorMessageOf
        ⟨none, "",
          "PHP Fatal error: Uncaught Error in /ext/quickphp.php:2 thrown in /ext/quickphp.php on line 2"⟩
        true "/ext/quickphp.php")
      "/ext/quickphp.php" = true := by
  decide

/-- C6 amended: on failure in live mode with a temp file, the first occurrence
of the temp file path in the error text is substituted with the placeholder
Current File, and the remainder of the text after that occurrence is kept
unchanged (later occurrences survive). -/
theorem C6_first_occurrence_substitution (r : ProcessResult) (path : String)
    (hstderr : jsTrim r.stderr ≠ "")
    (hocc : jsIncludes (jsTrim r.stderr) path = true) :
    ∃ a b : List Char,
      (jsTrim r.stderr).data = a ++ path.data ++ b ∧
      (errorMessageOf r true path).data = a ++ "Current File".data ++ b := by
  have hm : errorMessageOf r true path =
      jsReplace (jsTrim r.stderr) path "Current File" := by
    simp [errorMessageOf, jsOrStr, hstderr]
  obtain ⟨a, b, h1, h2⟩ :=
    replaceFirstList_spec path.data "Current File".data (jsTrim r.stderr).data hocc
  exact ⟨a, b, h1, by rw [hm]; exact h2⟩

theorem C6_first_occurrence_substitution_witness :
    ∃ a b : List Char,
      (jsTrim "Err in /e/quickphp.php and /e/quickphp.php").data =
        a ++ "/e/quickphp.php".data ++ b ∧
      (errorMessageOf ⟨none, "", "Err in /e/quickphp.php and /e/quickphp.php"⟩
          true "/e/quickphp.php").data =
        a ++ "Current File".data ++ b :=
  C6_first_occurrence_substitution
    ⟨none, "", "Err in /e/quickphp.php and /e/quickphp.php"⟩
    "/e/quickphp.php" (by decide) (by decide)

/-- C7 counterexample: called with empty result text while an annotation is
visible, the presenter returns without touching the state: the existing
annotation survives, contradicting the claim that the presenter clears it. -/
theorem C7_counterexample :
    displayInlineOutput ⟨none, none, none⟩ "" "line" 0 "0.01" false
        ⟨[⟨0, 0, 4, " // hi", "grey"⟩], some ⟨0, 0, 4, " // hi", "grey"⟩, none, 1⟩ =
      ⟨[⟨0, 0, 4, " // hi", "grey"⟩], some ⟨0, 0, 4, " // hi", "grey"⟩, none, 1⟩ ∧
    (⟨[⟨0, 0, 4, " // hi", "grey"⟩], some ⟨0, 0, 4, " // hi", "grey"⟩, none, 1⟩ :
        RenderState).visible ≠ [] := by
  decide

/-- C7 amended: on empty or whitespace-only result text the presenter stops
without rendering and leaves the decoration state entirely unchanged (it does
not itself clear); in the live completion path the caller has already cleared
the annotation, so a successful run with empty output ends with none
visible. -/
theorem C7_empty_output (cfg : WorkspaceConfig) (o tl t : String) (cl : Nat)
    (e : Bool) (st : RenderState) (ho : jsTrim o = "") :
    displayInlineOutput cfg o tl cl t e st = st ∧
    (∀ target r, isFailure r = false → jsTrim r.stdout = "" → RenderInv st →
      (runPHPCodeOnComplete cfg target r tl cl t st).visible = []) := by
  constructor
  · unfold displayInlineOutput
    rw [if_pos ho]
  · intro target r hf hs hInv
    have hguard : jsTrim (jsTrim r.stdout) = "" := by
      rw [hs]
      decide
    have h1 : runPHPCodeOnComplete cfg target r tl cl t st =
        displayInlineOutput cfg (jsTrim r.stdout) tl cl t false (clearOutput st) := by
      unfold runPHPCodeOnComplete
      rw [hf]
      simp
    have h2 : displayInlineOutput cfg (jsTrim r.stdout) tl cl t false
        (clearOutput st) = clearOutput st := by
      unfold displayInlineOutput
      rw [if_pos hguard]
    rw [h1, h2, clearOutput_eq_of_inv st hInv]

theorem C7_empty_output_witness :
    displayInlineOutput ⟨none, none, none⟩ " " "ln" 0 "0.02" false
        ⟨[⟨0, 0, 2, " // y", "grey"⟩], some ⟨0, 0, 2, " // y", "grey"⟩, none, 1⟩ =
      ⟨[⟨0, 0, 2, " // y", "grey"⟩], some ⟨0, 0, 2, " // y", "grey"⟩, none, 1⟩ ∧
    (runPHPCodeOnComplete ⟨none, none, none⟩ (ExecTarget.savedFile "/a.php")
        ⟨none, "", ""⟩ "ln" 0 "0.02"
        ⟨[⟨0, 0, 2, " // y", "grey"⟩], some ⟨0, 0, 2, " // y", "grey"⟩, none, 1⟩).visible
      = [] := by
  have h := C7_empty_output ⟨none, none, none⟩ " " "ln" "0.02" 0 false
    ⟨[⟨0, 0, 2, " // y", "grey"⟩], some ⟨0, 0, 2, " // y", "grey"⟩, none, 1⟩ (by decide)
  exact ⟨h.1, h.2 (ExecTarget.savedFile "/a.php") ⟨none, "", ""⟩ (by decide) (by decide)
    ⟨rfl, rfl, by
      intro d hd
      injection hd with h2
      rw [← h2]
      exact Nat.lt_succ_self 0⟩⟩

/-- C10: Every live-mode failure renders a red annotation whose text doubles
the Error prefix: the exec callback prepends Error: to the message and the
presenter prepends Error: again when the error flag is set, so the decoration
reads the message behind a doubled Error: Error: prefix with the execution
time appended. -/
theorem C10_doubled_error_text (cfg : WorkspaceConfig) (target : ExecTarget)
    (r : ProcessResult) (tl t : String) (cl : Nat) (st : RenderState)
    (hInv : RenderInv st) (hfail : isFailure r = true) :
    (runPHPCodeOnComplete cfg target r tl cl t st).currentDecorationType =
      some ⟨st.nextId, cl, tl.length,
        " // Error: Error: " ++ errorMessageOf r target.isTempFile target.filePath ++
          " (Execution Time: " ++ t ++ "s)",
        "red"⟩ := by
  have hout : jsTrim
      ("Error: " ++ errorMessageOf r target.isTempFile target.filePath) ≠ "" := by
    refine jsTrim_ne_empty_of_head 'E'
      ("rror: ".data ++ (errorMessageOf r target.isTempFile target.filePath).data)
      (by decide) _ ?_
    rw [String.data_append]
    rfl
  have hkey : runPHPCodeOnComplete cfg target r tl cl t st =
      displayInlineOutput cfg
        ("Error: " ++ errorMessageOf r target.isTempFile target.filePath)
        tl cl t true (clearOutput st) := by
    unfold runPHPCodeOnComplete
    rw [if_pos hfail]
  rw [hkey, displayInlineOutput_eq_error cfg
    ("Error: " ++ errorMessageOf r target.isTempFile target.filePath) tl t cl
    (clearOutput st) (renderInv_clearOutput st hInv) hout,
    clearOutput_eq_of_inv st hInv, error_contentText_norm]

theorem C10_doubled_error_text_witness :
    (runPHPCodeOnComplete ⟨none, none, none⟩
        (ExecTarget.tempFile "/ext/quickphp.php" "<?php\necho $x;\n?>")
        ⟨none, "", "PHP Notice: Undefined variable x in /ext/quickphp.php on line 2"⟩
        "echo $x;" 0 "0.03" RenderState.initial).currentDecorationType =
      some ⟨0, 0, 8,
        " // Error: Error: PHP Notice: Undefined variable x in Current File on line 2 (Execution Time: 0.03s)",
        "red"⟩ := by
  have h := C10_doubled_error_text ⟨none, none, none⟩
    (ExecTarget.tempFile "/ext/quickphp.php" "<?php\necho $x;\n?>")
    ⟨none, "", "PHP Notice: Undefined variable x in /ext/quickphp.php on line 2"⟩
    "echo $x;" "0.03" 0 RenderState.initial renderInv_initial (by decide)
  rw [h]
  decide

end QuickPHP
